import Mathlib

set_option maxRecDepth 10000

/- Formal model of `src/octoprint/_version.py`: the version-resolution core of
OctoPrint (PEP-440 validation, branch-rule parsing, template composition from
git data, the keyword-expansion source, the static-file source, and the ranked
source chain `get_data`).  Python strings are modelled as Lean `String`
processed through their `List Char` data; each Python helper is translated
into an executable Lean definition below. -/

/-- Python whitespace characters (`str.strip`, `str.split`, and the regex class
in the ASCII range used by this code base). -/
def isPySpace (c : Char) : Bool :=
  c = ' ' || c = '\t' || c = '\n' || c = '\r' || c = '\x0b' || c = '\x0c'

/-- ASCII decimal digit, the characters matched by the regex class 0-9. -/
def isDig (c : Char) : Bool := 48 ≤ c.toNat && c.toNat ≤ 57

/-- Test whether the second list starts with the first (character-exact). -/
def chStarts : List Char → List Char → Bool
  | [], _ => true
  | _ :: _, [] => false
  | p :: ps, c :: cs => (p = c) && chStarts ps cs

/-- Python `s.startswith(p)`. -/
def strStarts (s p : String) : Bool := chStarts p.data s.data

/-- Drop the characters satisfying `p` from both ends of a character list. -/
def stripEnds (p : Char → Bool) (l : List Char) : List Char :=
  ((l.dropWhile p).reverse.dropWhile p).reverse

/-- Python `s.strip()` (whitespace from both ends). -/
def pyStrip (s : String) : String := ⟨stripEnds isPySpace s.data⟩

/-- Python `s.strip("()")`. -/
def pyStripParens (s : String) : String :=
  ⟨stripEnds (fun c => c = '(' || c = ')') s.data⟩

/-- Helper for splitting a character list at newline characters. -/
def splitNl : List Char → List Char → List String
  | acc, [] => [⟨acc.reverse⟩]
  | acc, '\n' :: rest => ⟨acc.reverse⟩ :: splitNl [] rest
  | acc, c :: rest => splitNl (c :: acc) rest

/-- Python `s.splitlines()` for newline-delimited text (the configuration block
uses `\n` only; a trailing empty segment is immaterial because empty lines are
skipped by the parser). -/
def pySplitLines (s : String) : List String := splitNl [] s.data

/-- Helper for Python whitespace splitting: accumulates the current token. -/
def splitWsAux : List Char → List Char → List String
  | acc, [] => if acc.isEmpty then [] else [⟨acc.reverse⟩]
  | acc, c :: rest =>
    if isPySpace c then
      if acc.isEmpty then splitWsAux [] rest
      else ⟨acc.reverse⟩ :: splitWsAux [] rest
    else splitWsAux (c :: acc) rest

/-- Python `s.split()` (split on whitespace runs, no empty tokens). -/
def pySplitWs (s : String) : List String := splitWsAux [] s.data

/-- Helper for splitting at commas, keeping empty segments. -/
def splitCommaAux : List Char → List Char → List String
  | acc, [] => [⟨acc.reverse⟩]
  | acc, ',' :: rest => ⟨acc.reverse⟩ :: splitCommaAux [] rest
  | acc, c :: rest => splitCommaAux (c :: acc) rest

/-- Python `s.split(",")`. -/
def pySplitComma (s : String) : List String := splitCommaAux [] s.data

/-- Occurrence test used for Python `needle in haystack`. -/
def chSub (n : List Char) : List Char → Bool
  | [] => n.isEmpty
  | c :: cs => chStarts n (c :: cs) || chSub n cs

/-- Python `needle in haystack` on strings. -/
def substrIn (needle hay : String) : Bool := chSub needle.data hay.data

/-- Python slice `s[n:]` (characters, matching Python code points). -/
def strDrop (s : String) (n : Nat) : String := ⟨s.data.drop n⟩

/-- Python slice `s[:n]`. -/
def strTake (s : String) (n : Nat) : String := ⟨s.data.take n⟩

/-- One piece of a Python format template: a literal character or a
placeholder name written between braces. -/
inductive TItem where
  | lit (c : Char)
  | var (name : String)

/-- Parse a format-template character list into items.  The fuel argument is
an upper bound on the number of items (the template length suffices). -/
def parseTpl : Nat → List Char → List TItem
  | 0, _ => []
  | _ + 1, [] => []
  | fuel + 1, c :: cs =>
    if c = '\x7b' then
      let name := cs.takeWhile fun d => !(d = '\x7d')
      let rest := (cs.dropWhile fun d => !(d = '\x7d')).drop 1
      .var ⟨name⟩ :: parseTpl fuel rest
    else
      .lit c :: parseTpl fuel cs

/-- Render parsed template items, substituting each placeholder once with the
string supplied by `v` (Python `str.format` does not re-scan substituted
values). -/
def renderTpl (v : String → String) : List TItem → String → String
  | [], acc => acc
  | .lit c :: rest, acc => renderTpl v rest (acc.push c)
  | .var n :: rest, acc => renderTpl v rest (acc ++ v n)

/-- Python `template.format(**vars)` restricted to the brace-placeholder form
used in this file. -/
def pyFormat (tpl : String) (v : String → String) : String :=
  renderTpl v (parseTpl (tpl.data.length + 1) tpl.data) ""

/- PEP-440 validator.  `PEP440_REGEX` is anchored (`^\s* ... \s*$`, no
MULTILINE), so `search` is a full match.  The regex is compiled with
IGNORECASE; character comparisons below therefore accept both cases.  The
translation below follows the regex group by group: optional `v`, optional
epoch, release segment, optional pre/post/dev groups, optional local label,
surrounded by optional whitespace. -/

/-- Case-insensitive comparison of an input character `c` against a lowercase
pattern character `k` (IGNORECASE semantics for ASCII letters). -/
def ciEq (c k : Char) : Bool := c = k || c.toNat + 32 = k.toNat

/-- Test whether the input (second list) starts with the lowercase pattern
(first list), case-insensitively. -/
def chStartsCI : List Char → List Char → Bool
  | [], _ => true
  | _ :: _, [] => false
  | k :: ks, c :: cs => ciEq c k && chStartsCI ks cs

/-- The regex separator class `[-_.]`. -/
def isSepCh (c : Char) : Bool := c = '-' || c = '_' || c = '.'

/-- The regex class `[a-z0-9]` under IGNORECASE. -/
def isAlnumCI (c : Char) : Bool :=
  isDig c || (97 ≤ c.toNat && c.toNat ≤ 122) || (65 ≤ c.toNat && c.toNat ≤ 90)

/-- Try a list of literal keywords in order; consume the first that is a
case-insensitive prefix of the input.  The keyword lists below are ordered so
that within any family sharing a prefix the longer keyword is tried first,
which coincides with the backtracking behaviour of the regex alternation. -/
def pvKw : List String → List Char → Option (List Char)
  | [], _ => none
  | k :: ks, l => if chStartsCI k.data l then some (l.drop k.data.length) else pvKw ks l

/-- Optional separator before a sub-parser: `[-_.]? X` with backtracking (if
consuming the separator does not let `X` match, try `X` directly). -/
def sepThen (f : List Char → Option (List Char)) : List Char → Option (List Char)
  | [] => f []
  | c :: rest =>
    if isSepCh c then
      match f rest with
      | some r => some r
      | none => f (c :: rest)
    else f (c :: rest)

/-- The common tail `[-_.]? [0-9]*` after a matched keyword (both parts
optional and greedy). -/
def kwTail (l : List Char) : List Char :=
  (match l with
   | c :: rest => if isSepCh c then rest else c :: rest
   | [] => []).dropWhile isDig

/-- The epoch group `([0-9]+ !)?`: consumed only when the digits are followed
by `!`. -/
def pvEpoch (l : List Char) : List Char :=
  match l with
  | c :: rest =>
    if isDig c then
      match rest.dropWhile isDig with
      | '!' :: r => r
      | _ => c :: rest
    else c :: rest
  | [] => []

/-- The release-segment tail `(\. [0-9]+)*`.  The fuel argument is an upper
bound on the number of consumed groups (the input length suffices); it makes
the recursion structural so that the definition evaluates in the kernel. -/
def pvRelTail : Nat → List Char → List Char
  | 0, l => l
  | fuel + 1, l =>
    match l with
    | '.' :: d :: rest =>
      if isDig d then pvRelTail fuel (rest.dropWhile isDig) else '.' :: d :: rest
    | l => l

/-- The release segment `[0-9]+ (\. [0-9]+)*`; fails when no digit leads. -/
def pvRelease (l : List Char) : Option (List Char) :=
  match l with
  | d :: rest =>
    if isDig d then some (pvRelTail (rest.length + 1) (rest.dropWhile isDig)) else none
  | [] => none

/-- Pre-release keywords `(a|b|c|rc|alpha|beta|pre|preview)`, longest-first
within each shared-prefix family. -/
def preKws : List String := ["alpha", "beta", "preview", "pre", "rc", "a", "b", "c"]

/-- The optional pre-release group. -/
def pvPre (l : List Char) : List Char :=
  match sepThen (pvKw preKws) l with
  | none => l
  | some r => kwTail r

/-- Post-release keywords `(post|rev|r)` in regex alternation order. -/
def postKws : List String := ["post", "rev", "r"]

/-- The keyword alternative of the post-release group. -/
def pvPostAlt (l : List Char) : List Char :=
  match sepThen (pvKw postKws) l with
  | none => l
  | some r => kwTail r

/-- The optional post-release group: `- [0-9]+` or `[-_.]? (post|rev|r)
[-_.]? [0-9]*`. -/
def pvPost (l : List Char) : List Char :=
  match l with
  | '-' :: d :: rest =>
    if isDig d then rest.dropWhile isDig else pvPostAlt ('-' :: d :: rest)
  | _ => pvPostAlt l

/-- The optional dev-release group `[-_.]? dev [-_.]? [0-9]*`. -/
def pvDev (l : List Char) : List Char :=
  match sepThen (pvKw ["dev"]) l with
  | none => l
  | some r => kwTail r

/-- The local-label tail `([-_.] [a-z0-9]+)*`, fuel-bounded like
`pvRelTail`. -/
def pvLocalTail : Nat → List Char → List Char
  | 0, l => l
  | fuel + 1, l =>
    match l with
    | s :: d :: rest =>
      if isSepCh s && isAlnumCI d then pvLocalTail fuel (rest.dropWhile isAlnumCI)
      else s :: d :: rest
    | l => l

/-- The local version label `[a-z0-9]+ ([-_.] [a-z0-9]+)*`. -/
def pvLocal (l : List Char) : Option (List Char) :=
  match l with
  | d :: rest =>
    if isAlnumCI d then some (pvLocalTail (rest.length + 1) (rest.dropWhile isAlnumCI)) else none
  | [] => none

/-- Full-match test against `PEP440_REGEX` on a character list. -/
def pep440Match (l0 : List Char) : Bool :=
  let l1 := l0.dropWhile isPySpace
  let l2 := match l1 with
    | c :: r => if ciEq c 'v' then r else c :: r
    | [] => []
  let l3 := pvEpoch l2
  match pvRelease l3 with
  | none => false
  | some l4 =>
    let l5 := pvDev (pvPost (pvPre l4))
    match l5 with
    | '+' :: r =>
      match pvLocal r with
      | none => false
      | some r2 => (r2.dropWhile isPySpace).isEmpty
    | l6 => (l6.dropWhile isPySpace).isEmpty

/-- Python `_validate_version`: `PEP440_REGEX.search(version) is not None`. -/
def validate_version (version : String) : Bool := pep440Match version.data

/- Branch-pattern regular expressions.  `_parse_branch_versions` compiles the
first whitespace token of each rule line with `re.compile` and matches it with
`matcher.match(branch)` (anchored at the start of the string, not required to
cover all of it).  The configuration rules only use literal characters, the
wildcard `.` and the `*` quantifier, so the model compiles exactly that
fragment; any other regex metacharacter is treated as a compile failure, and a
`*` with nothing to repeat fails to compile exactly as in Python. -/

/-- A single regex atom: a literal character or the wildcard `.`. -/
inductive RAtom where
  | ch (c : Char)
  | dot
  deriving DecidableEq

/-- A regex element: one atom, or an atom under the `*` quantifier. -/
inductive RItem where
  | once (a : RAtom)
  | star (a : RAtom)
  deriving DecidableEq

/-- Regex metacharacters outside the modelled fragment. -/
def isRMeta (c : Char) : Bool :=
  c = '^' || c = '$' || c = '+' || c = '?' || c = '(' || c = ')' ||
  c = '[' || c = ']' || c = '\x7b' || c = '\x7d' || c = '\\' || c = '|'

/-- Compile a pattern character list, accumulating parsed items in reverse. -/
def pcompileAux : List Char → List RItem → Option (List RItem)
  | [], acc => some acc.reverse
  | c :: rest, acc =>
    if c = '*' then
      match acc with
      | .once a :: acc2 => pcompileAux rest (.star a :: acc2)
      | _ => none
    else if c = '.' then pcompileAux rest (.once .dot :: acc)
    else if isRMeta c then none
    else pcompileAux rest (.once (.ch c) :: acc)

/-- Python `re.compile` on the modelled fragment; `none` is a compile error. -/
def pcompile (pat : String) : Option (List RItem) := pcompileAux pat.data []

/-- Atom match; the wildcard does not match a newline (no DOTALL flag). -/
def matchAtom : RAtom → Char → Bool
  | .ch c, d => c = d
  | .dot, d => !(d = '\n')

/-- Anchored prefix matching of a compiled pattern against a character list
(the semantics of Python `matcher.match`: input may continue after the match).
Fuel-bounded with `pattern length + input length` so the recursion is
structural; every recursive call shortens that sum. -/
def rmatch : Nat → List RItem → List Char → Bool
  | 0, _, _ => false
  | _ + 1, [], _ => true
  | _ + 1, .once _ :: _, [] => false
  | fuel + 1, .once a :: rs, c :: cs => matchAtom a c && rmatch fuel rs cs
  | fuel + 1, .star _ :: rs, [] => rmatch fuel rs []
  | fuel + 1, .star a :: rs, c :: cs =>
    rmatch fuel rs (c :: cs) || (matchAtom a c && rmatch fuel (.star a :: rs) cs)

/-- Python `matcher.match(s) is not None`. -/
def reMatch (its : List RItem) (s : String) : Bool :=
  rmatch (its.length + s.data.length + 1) its s.data

/-- One parsed branch rule: compiled branch pattern (with its source text),
virtual tag and reference commit. -/
structure BranchRule where
  patternSrc : String
  matcher : List RItem
  virtualTag : String
  refCommit : String
  deriving DecidableEq

/-- Python `line[:line.index("#")] if "#" in line else line`. -/
def stripComment (line : String) : String :=
  if line.data.contains '#' then ⟨line.data.takeWhile fun c => !(c = '#')⟩ else line

/-- The token list of one configuration line after comment stripping. -/
def lineTokens (line : String) : List String :=
  (pySplitWs (pyStrip (stripComment line))).map pyStrip

/-- The per-line loop of `_parse_branch_versions`: comment-strip, skip blank
lines, skip lines whose token count is not 3, compile the first token; a
compile failure is the `except Exception: break`, which stops the loop and
returns the rules accumulated so far (here: emits no further rules). -/
def parseBranchLines : List String → List BranchRule
  | [] => []
  | line :: rest =>
    let stripped := pyStrip (stripComment line)
    if stripped.data.isEmpty then parseBranchLines rest
    else
      let toks := (pySplitWs stripped).map pyStrip
      if toks.length = 0 then parseBranchLines rest
      else if !(toks.length = 3) then parseBranchLines rest
      else
        match pcompile (toks.getD 0 "") with
        | none => []
        | some m =>
          { patternSrc := toks.getD 0 "", matcher := m,
            virtualTag := toks.getD 1 "", refCommit := toks.getD 2 "" } ::
            parseBranchLines rest

/-- Python `_parse_branch_versions`, parameterised by the configuration text
block (the source reads the module constant `BRANCH_VERSIONS`). -/
def parse_branch_versions (text : String) : List BranchRule :=
  if text.data.isEmpty then [] else parseBranchLines (pySplitLines text)

/-- The `BRANCH_VERSIONS` configuration constant, verbatim from the source. -/
def BRANCH_VERSIONS : String := "\n# Configuration for the branch versions, manually mapping tags based on branches\n#\n# Format is\n#\n#   <branch-regex> <tag> <reference commit>\n#\n# The data is processed from top to bottom, the first matching line wins.\n\n# maintenance is currently the branch for preparation of maintenance release 1.10.0\n# so are any fix/... and improve/... branches\nmaintenance 1.10.0 cd955e9a46782119b36cc22b8dea5652ebbf9774\nfix/.* 1.10.0 cd955e9a46782119b36cc22b8dea5652ebbf9774\nimprove/.* 1.10.0 cd955e9a46782119b36cc22b8dea5652ebbf9774\n\n# staging/bugfix is the branch for preparation of the 1.9.x bugfix releases\n# so are any bug/... branches\nstaging/bugfix 1.9.4 506648c152681bf4b1416cf2b5aaf97d526ee752 pep440-dev\nbug/.* 1.9.4 506648c152681bf4b1416cf2b5aaf97d526ee752 pep440-dev\n\n# staging/maintenance is currently the branch for preparation of 1.10.0rc2\n# so is regressionfix/...\nstaging/maintenance 1.10.0rc2 f1e7f3253cccfbc2cd2e445646fbc2d3b31250d1\nregressionfix/.* 1.10.0rc2 f1e7f3253cccfbc2cd2e445646fbc2d3b31250d1\n\n# staging/devel is currently inactive (but has the 1.4.1rc4 namespace)\nstaging/devel 1.4.1rc4 650d54d1885409fa1d411eb54b9e8c7ff428910f\n\n# devel and dev/* are development branches and thus get resolved to 2.0.0.dev for now\ndevel 2.0.0 2da7aa358d950b4567aaab8f18d6b5779193e077\ndev/* 2.0.0 2da7aa358d950b4567aaab8f18d6b5779193e077\nfeature/* 2.0.0 2da7aa358d950b4567aaab8f18d6b5779193e077\n"

/-- First-match-wins scan of the rule list (the `for matcher, ... break` loop
in `_get_data_from_git`). -/
def findRule : List BranchRule → String → Option BranchRule
  | [], _ => none
  | r :: rest, b => if reMatch r.matcher b then some r else findRule rest b

/-- The fallback version constant. -/
def FALLBACK : String := "0+unknown"

/-- The fallback version template used when a commit id is available. -/
def FALLBACK_WITH_SHA : String := "0+unknown.g{short}"

/-- The record returned by every source: version string, branch, revision. -/
structure VersionData where
  version : String
  branch : Option String
  revision : Option String
  deriving DecidableEq

/-- The terminal fallback record returned when every source fails. -/
def FALLBACK_DICT : VersionData :=
  { version := FALLBACK, branch := none, revision := none }

/-- The inspector outputs consumed by `_get_data_from_git`: each git query
yields `none` on failure.  `distance ref` models `_get_distance(ref)` (the
commit count `ref..HEAD`, `none` when the query fails). -/
structure GitEnv where
  branch : Option String
  is_dirty : Bool
  sha : Option String
  short : Option String
  tag : Option String
  distance : String → Option Nat

/-- The mutable composition variables of `_get_data_from_git` after the
branch-rule scan: current tag, distance, template and dirty suffix. -/
structure ComposeState where
  tag : Option String
  distance : Option Nat
  template : String
  dirtySfx : String

/-- Defaults plus the branch-rule override.  The default distance is
`_get_distance(tag)`; when `tag` is `None`, Python interpolates the ref
`None..HEAD`, which no repository resolves, so the query yields `none`.
On the first matching rule the tag becomes the rule's virtual tag and the
distance is measured from the rule's reference commit. -/
def selectState (env : GitEnv) : ComposeState :=
  let base : ComposeState :=
    { tag := env.tag,
      distance := match env.tag with | some t => env.distance t | none => none,
      template := "{tag}",
      dirtySfx := "+g{short}.dirty" }
  match env.branch with
  | none => base
  | some b =>
    match findRule (parse_branch_versions BRANCH_VERSIONS) b with
    | none => base
    | some rule =>
      { tag := some rule.virtualTag,
        distance := env.distance rule.refCommit,
        template := "{tag}.dev{distance}+g{short}",
        dirtySfx := ".dirty" }

/-- The template after `if is_dirty: template += dirty`. -/
def dirtyTemplate (env : GitEnv) : String :=
  let st := selectState env
  if env.is_dirty then st.template ++ st.dirtySfx else st.template

/-- The `vars` dictionary passed to `template.format(**vars)`; Python renders
`None` values as the string `"None"` and the integer distance via `str`. -/
def gitVars (env : GitEnv) : String → String :=
  let st := selectState env
  fun x =>
    if x = "tag" then (match st.tag with | some t => t | none => "None")
    else if x = "distance" then (match st.distance with | some d => toString d | none => "None")
    else if x = "full" then (match env.sha with | some s => s | none => "None")
    else if x = "short" then (match env.short with | some s => s | none => "None")
    else ""

/-- Python `any([vars[x] is None and "{" + x + "}" in template for x in vars])`:
is some placeholder referenced by the template unavailable? -/
def missingCheck (env : GitEnv) : Bool :=
  let st := selectState env
  let tpl := dirtyTemplate env
  (st.tag.isNone && substrIn "{tag}" tpl) ||
  (st.distance.isNone && substrIn "{distance}" tpl) ||
  (env.sha.isNone && substrIn "{full}" tpl) ||
  (env.short.isNone && substrIn "{short}" tpl)

/-- The template actually rendered: the generic fallback (plus `.dirty` when
dirty) replaces an abandoned template. -/
def finalTemplate (env : GitEnv) : String :=
  if missingCheck env then
    (if env.short.isNone then FALLBACK else FALLBACK_WITH_SHA) ++
      (if env.is_dirty then ".dirty" else "")
  else dirtyTemplate env

/-- The `version = template.format(**vars)` line of `_get_data_from_git`. -/
def gitVersionString (env : GitEnv) : String :=
  pyFormat (finalTemplate env) (gitVars env)

/-- Python `_get_data_from_git`: compose, validate, and return the record (or
`None` when validation fails). -/
def get_data_from_git (env : GitEnv) : Option VersionData :=
  if validate_version (gitVersionString env) then
    some { version := gitVersionString env, branch := env.branch, revision := env.sha }
  else none

/- The keyword-expansion source.  The two `$Format$` markers are placeholders
replaced by git only inside exported archives; the model takes their current
contents as inputs.  Python collects the refs into a `set`; the model keeps
the split order in a list, which carries the same membership. -/

/-- The parsed ref list: strip the decoration parentheses, split at commas,
strip each entry, and remove a leading `HEAD -> ` marker. -/
def refsOf (refnames : String) : List String :=
  (pySplitComma (pyStripParens (pyStrip refnames))).map fun r =>
    let t := pyStrip r
    if strStarts t "HEAD -> " then strDrop t 8 else t

/-- The tag-prefixed refs, with the `tag: ` marker (5 characters) stripped. -/
def tagRefs (refs : List String) : List String :=
  (refs.filter fun r => strStarts r "tag: ").map fun r => strDrop r 5

/-- The tag candidates: tag-prefixed refs, or failing that any ref containing
a decimal digit. -/
def tagsOf (refs : List String) : List String :=
  let tags := tagRefs refs
  if tags.isEmpty then refs.filter (fun r => r.data.any isDig) else tags

/-- Lexicographic code-point comparison of character lists (Python string
`<=`). -/
def chLe : List Char → List Char → Bool
  | [], _ => true
  | _ :: _, [] => false
  | a :: as, b :: bs =>
    if a.toNat < b.toNat then true
    else if b.toNat < a.toNat then false
    else chLe as bs

/-- Python string comparison `a <= b`. -/
def strLe (a b : String) : Bool := chLe a.data b.data

/-- Insert a string into a sorted list (ascending). -/
def insertSorted (x : String) : List String → List String
  | [] => [x]
  | y :: ys => if strLe x y then x :: y :: ys else y :: insertSorted x ys

/-- Python `sorted` on a list of strings (insertion sort; same sorted result
as Python's stable sort). -/
def sortStrings : List String → List String
  | [] => []
  | x :: xs => insertSorted x (sortStrings xs)

/-- Python `sorted(tags)[0] if tags else None`. -/
def keywordTag (refs : List String) : Option String :=
  match sortStrings (tagsOf refs) with
  | [] => none
  | t :: _ => some t

/-- The branch candidates: refs that are not tag-prefixed, not `HEAD`, and
not namespaced under `refs/`. -/
def branchesOf (refs : List String) : List String :=
  refs.filter fun r => !strStarts r "tag: " && !(r = "HEAD") && !strStarts r "refs/"

/-- Python `_get_data_from_keywords`, as a function of the two marker
strings. -/
def get_data_from_keywords (git_refnames git_full : String) : Option VersionData :=
  if strStarts git_refnames "$Format" || strStarts git_full "$Format" then none
  else
    let refs := refsOf git_refnames
    let tag := keywordTag refs
    let branch := (branchesOf refs).head?
    let template := match tag with | none => FALLBACK_WITH_SHA | some _ => "{tag}"
    let version := pyFormat template fun x =>
      if x = "short" then strTake git_full 8
      else if x = "tag" then (match tag with | some t => t | none => "None")
      else ""
    if validate_version version then
      some { version := version, branch := branch, revision := some git_full }
    else none

/- The static-file source and the source chain.  `_get_data_from_static_file`
opens `_static_version.py` with no exception handler anywhere on the path, so
a missing file raises `FileNotFoundError` out of `get_data`; the model returns
an `Except` error for that case.  A present file is modelled by the three
assignments the generated file contains. -/

/-- The three assignments of a generated `_static_version.py`. -/
structure StaticContent where
  version : String
  branch : Option String
  revision : Option String

/-- The error that escapes the chain: the unhandled `FileNotFoundError` from
`open` when the static file is absent. -/
inductive VersionError where
  | staticFileMissing
  deriving DecidableEq

/-- Python `_get_data_from_static_file`: raises when the file is absent,
returns `None` on the `__use_git__` sentinel or an invalid version, and the
parsed record otherwise. -/
def get_data_from_static_file (file : Option StaticContent) :
    Except VersionError (Option VersionData) :=
  match file with
  | none => .error .staticFileMissing
  | some data =>
    if data.version = "__use_git__" then .ok none
    else if !validate_version data.version then .ok none
    else .ok (some { version := data.version, branch := data.branch, revision := data.revision })

/-- The full environment of one `get_data` call: static-file state, keyword
marker contents, and the git inspector outputs. -/
structure Env where
  staticFile : Option StaticContent
  refnames : String
  full : String
  git : GitEnv

/-- Python `get_data`: try the static file, then keywords, then git, in that
order; return the first result, else the fallback record.  The loop has no
exception handler, so the static-file error propagates. -/
def get_data (env : Env) : Except VersionError VersionData :=
  match get_data_from_static_file env.staticFile with
  | .error e => .error e
  | .ok (some d) => .ok d
  | .ok none =>
    match get_data_from_keywords env.refnames env.full with
    | some d => .ok d
    | none =>
      match get_data_from_git env.git with
      | some d => .ok d
      | none => .ok FALLBACK_DICT

/- Helper lemmas shared by the claim theorems. -/

/-- Any record returned by the git source passed validation. -/
theorem gitSourceValid (env : GitEnv) (d : VersionData)
    (h : get_data_from_git env = some d) : validate_version d.version = true := by
  unfold get_data_from_git at h
  split at h
  next hv => cases h; exact hv
  next => simp at h

/-- Any record returned by the keyword source passed validation. -/
theorem kwSourceValid (rn fl : String) (d : VersionData)
    (h : get_data_from_keywords rn fl = some d) : validate_version d.version = true := by
  simp only [get_data_from_keywords] at h
  split at h
  · simp at h
  · split at h
    next hv => cases h; exact hv
    next => simp at h

/-- Any record returned by the static-file source passed validation. -/
theorem staticSourceValid (sf : Option StaticContent) (d : VersionData)
    (h : get_data_from_static_file sf = .ok (some d)) : validate_version d.version = true := by
  cases sf with
  | none => simp [get_data_from_static_file] at h
  | some content =>
    simp only [get_data_from_static_file] at h
    split at h
    · simp at h
    · split at h
      next => simp at h
      next hv =>
        cases h
        simp only [Bool.not_eq_true'] at hv
        simp [hv]

/-- C3: whenever `get_data` returns a record, its version field satisfies the
PEP-440 validator: every source gates its result on `_validate_version`, and
the terminal fallback constant `0+unknown` itself validates. -/
theorem C3_returned_version_valid (env : Env) (d : VersionData)
    (h : get_data env = .ok d) : validate_version d.version = true := by
  unfold get_data at h
  cases hs : get_data_from_static_file env.staticFile with
  | error e => rw [hs] at h; simp at h
  | ok o =>
    rw [hs] at h
    cases o with
    | some ds =>
      simp only [Except.ok.injEq] at h
      exact h ▸ staticSourceValid env.staticFile ds hs
    | none =>
      cases hk : get_data_from_keywords env.refnames env.full with
      | some dk =>
        rw [hk] at h
        simp only [Except.ok.injEq] at h
        exact h ▸ kwSourceValid env.refnames env.full dk hk
      | none =>
        rw [hk] at h
        cases hg : get_data_from_git env.git with
        | some dg =>
          rw [hg] at h
          simp only [Except.ok.injEq] at h
          exact h ▸ gitSourceValid env.git dg hg
        | none =>
          rw [hg] at h
          simp only [Except.ok.injEq] at h
          rw [← h]
          decide

/-- Witness for C3 at a concrete environment whose static file is present and
valid. -/
theorem C3_witness :
    validate_version
      (VersionData.version
        { version := "1.2.3", branch := some "main", revision := some "abc" }) = true :=
  C3_returned_version_valid
    { staticFile := some { version := "1.2.3", branch := some "main", revision := some "abc" },
      refnames := "$Format:%d$", full := "$Format:%H$",
      git := { branch := none, is_dirty := false, sha := none, short := none,
               tag := none, distance := fun _ => none } }
    { version := "1.2.3", branch := some "main", revision := some "abc" }
    rfl

/-- C2: evaluation of the chain at an environment whose static data file is
absent: `open` raises `FileNotFoundError`, and `get_data` has no exception
handler, so the error propagates to the caller instead of the chain advancing
to the next source. -/
theorem C2_static_absent_raises :
    get_data
      { staticFile := none, refnames := "$Format:%d$", full := "$Format:%H$",
        git := { branch := none, is_dirty := false, sha := none, short := none,
                 tag := none, distance := fun _ => none } } =
      .error .staticFileMissing := rfl

/-- C7: the PEP-440 validator accepts the three stated versions and rejects
the two stated non-versions; it is case-insensitive and permits an optional
leading `v` (upper or lower case). -/
theorem C7_pep440_cases :
    validate_version "1.10.0rc2" = true ∧
    validate_version "2.0.0.dev0+gabc123" = true ∧
    validate_version "1.9.4.post3.dev0" = true ∧
    validate_version "v1.x" = false ∧
    validate_version "not-a-version" = false ∧
    validate_version "1.10.0RC2" = true ∧
    validate_version "V1.10.0rc2" = true ∧
    validate_version "v1.10.0rc2" = true := by decide

/-- C9: parsing the built-in `BRANCH_VERSIONS` block yields exactly the nine
3-token rules in source order; the two 4-token `pep440-dev` lines contribute
no rule, and the branches `staging/bugfix` and `bug/...` match no rule. -/
theorem C9_builtin_table :
    (parse_branch_versions BRANCH_VERSIONS).map
        (fun r => (r.patternSrc, r.virtualTag, r.refCommit)) =
      [("maintenance", "1.10.0", "cd955e9a46782119b36cc22b8dea5652ebbf9774"),
       ("fix/.*", "1.10.0", "cd955e9a46782119b36cc22b8dea5652ebbf9774"),
       ("improve/.*", "1.10.0", "cd955e9a46782119b36cc22b8dea5652ebbf9774"),
       ("staging/maintenance", "1.10.0rc2", "f1e7f3253cccfbc2cd2e445646fbc2d3b31250d1"),
       ("regressionfix/.*", "1.10.0rc2", "f1e7f3253cccfbc2cd2e445646fbc2d3b31250d1"),
       ("staging/devel", "1.4.1rc4", "650d54d1885409fa1d411eb54b9e8c7ff428910f"),
       ("devel", "2.0.0", "2da7aa358d950b4567aaab8f18d6b5779193e077"),
       ("dev/*", "2.0.0", "2da7aa358d950b4567aaab8f18d6b5779193e077"),
       ("feature/*", "2.0.0", "2da7aa358d950b4567aaab8f18d6b5779193e077")] ∧
    (findRule (parse_branch_versions BRANCH_VERSIONS) "staging/bugfix").isNone = true ∧
    (findRule (parse_branch_versions BRANCH_VERSIONS) "bug/1234").isNone = true := by
  refine ⟨by decide, by decide, by decide⟩

/-- C1 counterexample: a block with one valid rule followed by a 2-field line
yields a one-entry table, not the empty table the claim requires. -/
theorem C1_counterexample :
    (parse_branch_versions
        "maintenance 1.10.0 cd955e9a46782119b36cc22b8dea5652ebbf9774\nfoo bar").map
        (fun r => (r.patternSrc, r.virtualTag, r.refCommit)) =
      [("maintenance", "1.10.0", "cd955e9a46782119b36cc22b8dea5652ebbf9774")] ∧
    parse_branch_versions
        "maintenance 1.10.0 cd955e9a46782119b36cc22b8dea5652ebbf9774\nfoo bar" ≠ [] := by
  refine ⟨by decide, by decide⟩

/-- C1 (amended): a configuration line whose token count after
comment-stripping is not 3 is skipped and parsing continues with the
remaining lines; a 3-token line whose first token fails to compile as a
regular expression stops parsing immediately but keeps the rules parsed so
far (a partial table); in particular one valid rule followed by a 2-field
line yields a one-rule table, and a later compile failure keeps the earlier
rules. -/
theorem C1_amended_parse_behavior :
    (∀ (line : String) (rest : List String), ¬ (lineTokens line).length = 3 →
      parseBranchLines (line :: rest) = parseBranchLines rest) ∧
    (∀ (line : String) (rest : List String) (t1 t2 t3 : String),
      lineTokens line = [t1, t2, t3] → pcompile t1 = none →
      parseBranchLines (line :: rest) = []) ∧
    (parse_branch_versions "maintenance 1.10.0 c1\nfoo bar\nfix/.* 1.10.0 c1").map
        (fun r => (r.patternSrc, r.virtualTag, r.refCommit)) =
      [("maintenance", "1.10.0", "c1"), ("fix/.*", "1.10.0", "c1")] ∧
    (parse_branch_versions "maintenance 1.10.0 c1\n* 2.0 d\nfix/.* 1.10.0 c1").map
        (fun r => (r.patternSrc, r.virtualTag, r.refCommit)) =
      [("maintenance", "1.10.0", "c1")] := by
  refine ⟨?_, ?_, by decide, by decide⟩
  · intro line rest h
    unfold lineTokens at h
    simp only [parseBranchLines]
    split
    · rfl
    · split
      · rfl
      · split
        · rfl
        next h3 =>
          exfalso
          simp only [Bool.not_eq_true, Bool.not_eq_false] at h3
          exact h (by simpa using h3)
  · intro line rest t1 t2 t3 htoks hcomp
    unfold lineTokens at htoks
    simp only [parseBranchLines]
    split
    next hempty =>
      exfalso
      rw [List.isEmpty_iff] at hempty
      unfold pySplitWs at htoks
      rw [hempty] at htoks
      simp [splitWsAux] at htoks
    · rw [htoks]
      simp [hcomp]

/-- Witness for C1: a 2-field line in head position is skipped, leaving the
parse of the remaining lines unchanged. -/
theorem C1_witness :
    parseBranchLines ["foo bar", "maintenance 1.10.0 c1"] =
      parseBranchLines ["maintenance 1.10.0 c1"] :=
  C1_amended_parse_behavior.1 "foo bar" ["maintenance 1.10.0 c1"] (by decide)

/- String-extensionality and template-rendering helper lemmas. -/

/-- Two strings with the same character data are equal. -/
theorem strExt {a b : String} (h : a.data = b.data) : a = b :=
  congrArg String.mk h

/-- Appending strings appends their character data. -/
theorem dataAppend (a b : String) : (a ++ b).data = a.data ++ b.data := rfl

/-- Pushing a character appends it to the character data. -/
theorem dataPush (s : String) (c : Char) : (s.push c).data = s.data ++ [c] := rfl

/-- The empty string is a right identity for append. -/
theorem strAppendEmpty (a : String) : a ++ "" = a :=
  strExt (by simp [dataAppend])

/-- Rendering the bare-tag template substitutes the tag value. -/
theorem fmtTag (v : String → String) : pyFormat "{tag}" v = v "tag" := rfl

/-- Rendering the plain fallback template is the fallback constant. -/
theorem fmtFb (v : String → String) : pyFormat "0+unknown" v = "0+unknown" := rfl

/-- Rendering the dirty fallback template. -/
theorem fmtFbD (v : String → String) : pyFormat "0+unknown.dirty" v = "0+unknown.dirty" := rfl

/-- Rendering the fallback-with-sha template substitutes the short id. -/
theorem fmtFbSha (v : String → String) :
    pyFormat "0+unknown.g{short}" v = "0+unknown.g" ++ v "short" := rfl

/-- Rendering the dirty fallback-with-sha template. -/
theorem fmtFbShaD (v : String → String) :
    pyFormat "0+unknown.g{short}.dirty" v = "0+unknown.g" ++ v "short" ++ ".dirty" := by
  apply strExt
  simp [pyFormat, renderTpl, parseTpl, dataAppend, dataPush]

/-- Rendering the dirty default template. -/
theorem fmtTagDirty (v : String → String) :
    pyFormat "{tag}+g{short}.dirty" v = v "tag" ++ "+g" ++ v "short" ++ ".dirty" := by
  apply strExt
  simp [pyFormat, renderTpl, parseTpl, dataAppend, dataPush]

/-- Rendering the rule-match template. -/
theorem fmtRule (v : String → String) :
    pyFormat "{tag}.dev{distance}+g{short}" v =
      v "tag" ++ ".dev" ++ v "distance" ++ "+g" ++ v "short" := by
  apply strExt
  simp [pyFormat, renderTpl, parseTpl, dataAppend, dataPush]

/-- Rendering the dirty rule-match template. -/
theorem fmtRuleDirty (v : String → String) :
    pyFormat "{tag}.dev{distance}+g{short}.dirty" v =
      v "tag" ++ ".dev" ++ v "distance" ++ "+g" ++ v "short" ++ ".dirty" := by
  apply strExt
  simp [pyFormat, renderTpl, parseTpl, dataAppend, dataPush]

/-- Composition on the rule-match path: virtual tag, distance from the rule's
reference commit, rule template, `.dirty` exactly when dirty. -/
theorem gitComposeRuleMatch (env : GitEnv) (b : String) (rule : BranchRule) (d : Nat)
    (s : String) (hb : env.branch = some b)
    (hf : findRule (parse_branch_versions BRANCH_VERSIONS) b = some rule)
    (hd : env.distance rule.refCommit = some d)
    (hs : env.short = some s) :
    gitVersionString env =
      if env.is_dirty then
        rule.virtualTag ++ ".dev" ++ toString d ++ "+g" ++ s ++ ".dirty"
      else rule.virtualTag ++ ".dev" ++ toString d ++ "+g" ++ s := by
  obtain ⟨br, dirty, sha, short, tag, dist⟩ := env
  dsimp only at hb hd hs ⊢
  subst hb hs
  have hsel : selectState ⟨some b, dirty, sha, some s, tag, dist⟩ =
      { tag := some rule.virtualTag, distance := dist rule.refCommit,
        template := "{tag}.dev{distance}+g{short}", dirtySfx := ".dirty" } := by
    simp only [selectState, hf]
  have hvt : gitVars ⟨some b, dirty, sha, some s, tag, dist⟩ "tag" = rule.virtualTag := by
    simp only [gitVars, hsel]
    simp
  have hvd : gitVars ⟨some b, dirty, sha, some s, tag, dist⟩ "distance" = toString d := by
    simp only [gitVars, hsel]
    simp [hd]
  have hvs : gitVars ⟨some b, dirty, sha, some s, tag, dist⟩ "short" = s := by
    simp only [gitVars, hsel]
    simp
  cases dirty with
  | false =>
    have hmc : missingCheck ⟨some b, false, sha, some s, tag, dist⟩ = false := by
      simp only [missingCheck, hsel, dirtyTemplate]
      simp [hd, show substrIn "{full}" "{tag}.dev{distance}+g{short}" = false from rfl]
    have hft : finalTemplate ⟨some b, false, sha, some s, tag, dist⟩ =
        "{tag}.dev{distance}+g{short}" := by
      simp only [finalTemplate, hmc, dirtyTemplate, hsel]
      rfl
    simp only [gitVersionString, hft, fmtRule, hvt, hvd, hvs, if_neg]
    simp
  | true =>
    have hmc : missingCheck ⟨some b, true, sha, some s, tag, dist⟩ = false := by
      simp only [missingCheck, hsel, dirtyTemplate]
      simp [hd, show substrIn "{full}" "{tag}.dev{distance}+g{short}.dirty" = false from rfl]
    have hft : finalTemplate ⟨some b, true, sha, some s, tag, dist⟩ =
        "{tag}.dev{distance}+g{short}.dirty" := by
      simp only [finalTemplate, hmc, dirtyTemplate, hsel]
      rfl
    simp only [gitVersionString, hft, fmtRuleDirty, hvt, hvd, hvs]
    simp

/-- Composition on the default path (no branch or no matching rule): the
nearest tag alone when clean, tag plus `+g<short>.dirty` when dirty; the
distance value does not occur in the result. -/
theorem gitComposeDefault (env : GitEnv) (t s : String)
    (hbr : env.branch = none ∨ ∃ b, env.branch = some b ∧
      findRule (parse_branch_versions BRANCH_VERSIONS) b = none)
    (htag : env.tag = some t) (hshort : env.short = some s) :
    gitVersionString env = if env.is_dirty then t ++ "+g" ++ s ++ ".dirty" else t := by
  obtain ⟨br, dirty, sha, short, tag, dist⟩ := env
  dsimp only at htag hshort hbr ⊢
  subst htag hshort
  have hsel : selectState ⟨br, dirty, sha, some s, some t, dist⟩ =
      { tag := some t, distance := dist t, template := "{tag}",
        dirtySfx := "+g{short}.dirty" } := by
    rcases hbr with h | ⟨b, hb, hf⟩
    · subst h; rfl
    · subst hb
      simp only [selectState, hf]
  have hvt : gitVars ⟨br, dirty, sha, some s, some t, dist⟩ "tag" = t := by
    simp only [gitVars, hsel]
    simp
  have hvs : gitVars ⟨br, dirty, sha, some s, some t, dist⟩ "short" = s := by
    simp only [gitVars, hsel]
    simp
  cases dirty with
  | false =>
    have hmc : missingCheck ⟨br, false, sha, some s, some t, dist⟩ = false := by
      simp only [missingCheck, hsel, dirtyTemplate]
      simp [show substrIn "{distance}" "{tag}" = false from rfl,
            show substrIn "{full}" "{tag}" = false from rfl,
            show substrIn "{short}" "{tag}" = false from rfl]
    have hft : finalTemplate ⟨br, false, sha, some s, some t, dist⟩ = "{tag}" := by
      simp only [finalTemplate, hmc, dirtyTemplate, hsel]
      rfl
    simp only [gitVersionString, hft, fmtTag, hvt, if_neg]
    rfl
  | true =>
    have hmc : missingCheck ⟨br, true, sha, some s, some t, dist⟩ = false := by
      simp only [missingCheck, hsel, dirtyTemplate]
      simp [show substrIn "{distance}" "{tag}+g{short}.dirty" = false from rfl,
            show substrIn "{full}" "{tag}+g{short}.dirty" = false from rfl]
    have hft : finalTemplate ⟨br, true, sha, some s, some t, dist⟩ =
        "{tag}+g{short}.dirty" := by
      simp only [finalTemplate, hmc, dirtyTemplate, hsel]
      rfl
    simp only [gitVersionString, hft, fmtTagDirty, hvt, hvs]
    rfl

/-- Composition when a referenced placeholder is unavailable: the generic
fallback replaces the template, with the short id when available and `.dirty`
appended when dirty. -/
theorem gitComposeFallback (env : GitEnv) (h : missingCheck env = true) :
    gitVersionString env =
      match env.short with
      | none => if env.is_dirty then "0+unknown.dirty" else "0+unknown"
      | some s => if env.is_dirty then "0+unknown.g" ++ s ++ ".dirty" else "0+unknown.g" ++ s := by
  obtain ⟨br, dirty, sha, short, tag, dist⟩ := env
  dsimp only at h ⊢
  cases short with
  | none =>
    cases dirty with
    | false =>
      have hft : finalTemplate ⟨br, false, sha, none, tag, dist⟩ = "0+unknown" := by
        simp only [finalTemplate, h]
        rfl
      simp only [gitVersionString, hft, fmtFb]
      simp
    | true =>
      have hft : finalTemplate ⟨br, true, sha, none, tag, dist⟩ = "0+unknown.dirty" := by
        simp only [finalTemplate, h]
        rfl
      simp only [gitVersionString, hft, fmtFbD]
      simp
  | some s =>
    have hvs : gitVars ⟨br, dirty, sha, some s, tag, dist⟩ "short" = s := by
      simp only [gitVars]
      simp
    cases dirty with
    | false =>
      have hft : finalTemplate ⟨br, false, sha, some s, tag, dist⟩ = "0+unknown.g{short}" := by
        simp only [finalTemplate, h]
        rfl
      simp only [gitVersionString, hft, fmtFbSha, hvs]
      simp
    | true =>
      have hft : finalTemplate ⟨br, true, sha, some s, tag, dist⟩ =
          "0+unknown.g{short}.dirty" := by
        simp only [finalTemplate, h]
        rfl
      simp only [gitVersionString, hft, fmtFbShaD, hvs]
      simp

/-- C4: when the branch matches a rule (first match wins), the version is
rendered from `{tag}.dev{distance}+g{short}` with the rule's virtual tag and
the distance from the rule's reference commit, `.dirty` appended exactly when
dirty; concretely, branch `maintenance` at distance 7 from the rule's
reference with short id `abc1234` yields `1.10.0.dev7+gabc1234`, and with a
dirty tree `1.10.0.dev7+gabc1234.dirty`. -/
theorem C4_rule_match_compose :
    (∀ (env : GitEnv) (b : String) (rule : BranchRule) (d : Nat) (s : String),
      env.branch = some b →
      findRule (parse_branch_versions BRANCH_VERSIONS) b = some rule →
      env.distance rule.refCommit = some d →
      env.short = some s →
      gitVersionString env =
        if env.is_dirty then
          rule.virtualTag ++ ".dev" ++ toString d ++ "+g" ++ s ++ ".dirty"
        else rule.virtualTag ++ ".dev" ++ toString d ++ "+g" ++ s) ∧
    get_data_from_git
        { branch := some "maintenance", is_dirty := false,
          sha := some "abc1234567", short := some "abc1234", tag := some "1.9.3",
          distance := fun r =>
            if r = "cd955e9a46782119b36cc22b8dea5652ebbf9774" then some 7 else none } =
      some { version := "1.10.0.dev7+gabc1234", branch := some "maintenance",
             revision := some "abc1234567" } ∧
    get_data_from_git
        { branch := some "maintenance", is_dirty := true,
          sha := some "abc1234567", short := some "abc1234", tag := some "1.9.3",
          distance := fun r =>
            if r = "cd955e9a46782119b36cc22b8dea5652ebbf9774" then some 7 else none } =
      some { version := "1.10.0.dev7+gabc1234.dirty", branch := some "maintenance",
             revision := some "abc1234567" } :=
  ⟨fun env b rule d s hb hf hd hs => gitComposeRuleMatch env b rule d s hb hf hd hs,
   by decide, by decide⟩

/-- Witness for C4: the rule-match composition applied at the concrete
`maintenance` environment. -/
theorem C4_witness :
    gitVersionString
      { branch := some "maintenance", is_dirty := false,
        sha := some "abc1234567", short := some "abc1234", tag := some "1.9.3",
        distance := fun r =>
          if r = "cd955e9a46782119b36cc22b8dea5652ebbf9774" then some 7 else none } =
      "1.10.0.dev7+gabc1234" :=
  (C4_rule_match_compose.1
      { branch := some "maintenance", is_dirty := false,
        sha := some "abc1234567", short := some "abc1234", tag := some "1.9.3",
        distance := fun r =>
          if r = "cd955e9a46782119b36cc22b8dea5652ebbf9774" then some 7 else none }
      "maintenance"
      { patternSrc := "maintenance", matcher := (pcompile "maintenance").getD [],
        virtualTag := "1.10.0", refCommit := "cd955e9a46782119b36cc22b8dea5652ebbf9774" }
      7 "abc1234" rfl (by decide) rfl rfl).trans (by decide)

/-- C5: when the branch matches no rule (or is absent) and the nearest tag and
short id are present, the version is the nearest tag alone when clean and
`tag+g<short>.dirty` when dirty; the computed distance is never substituted
(the result does not depend on the distance function).  Concretely, branch
`release/x` with nearest tag `1.2.3` and a distance oracle answering 5 yields
`1.2.3` clean and `1.2.3+gabcd123.dirty` dirty. -/
theorem C5_default_compose :
    (∀ (env : GitEnv) (t s : String),
      (env.branch = none ∨ ∃ b, env.branch = some b ∧
        findRule (parse_branch_versions BRANCH_VERSIONS) b = none) →
      env.tag = some t → env.short = some s →
      gitVersionString env = if env.is_dirty then t ++ "+g" ++ s ++ ".dirty" else t) ∧
    get_data_from_git
        { branch := some "release/x", is_dirty := false,
          sha := some "abcd1234567", short := some "abcd123", tag := some "1.2.3",
          distance := fun _ => some 5 } =
      some { version := "1.2.3", branch := some "release/x",
             revision := some "abcd1234567" } ∧
    get_data_from_git
        { branch := some "release/x", is_dirty := true,
          sha := some "abcd1234567", short := some "abcd123", tag := some "1.2.3",
          distance := fun _ => some 5 } =
      some { version := "1.2.3+gabcd123.dirty", branch := some "release/x",
             revision := some "abcd1234567" } :=
  ⟨fun env t s hbr htag hshort => gitComposeDefault env t s hbr htag hshort,
   by decide, by decide⟩

/-- Witness for C5: the default composition applied at the concrete
`release/x` environment. -/
theorem C5_witness :
    gitVersionString
      { branch := some "release/x", is_dirty := false,
        sha := some "abcd1234567", short := some "abcd123", tag := some "1.2.3",
        distance := fun _ => some 5 } = "1.2.3" :=
  (C5_default_compose.1
      { branch := some "release/x", is_dirty := false,
        sha := some "abcd1234567", short := some "abcd123", tag := some "1.2.3",
        distance := fun _ => some 5 }
      "1.2.3" "abcd123" (.inr ⟨"release/x", rfl, by decide⟩) rfl rfl).trans (by decide)

/-- C6: when some placeholder referenced by the selected template is
unavailable, the template is abandoned for the generic fallback —
`0+unknown.g{short}` when a short id exists, else `0+unknown`, with `.dirty`
appended when dirty; concretely, no branch and no tag with short `deadbee`
yields `0+unknown.gdeadbee`, and with no commit id at all `0+unknown`. -/
theorem C6_fallback_compose :
    (∀ env : GitEnv, missingCheck env = true →
      gitVersionString env =
        match env.short with
        | none => if env.is_dirty then "0+unknown.dirty" else "0+unknown"
        | some s =>
          if env.is_dirty then "0+unknown.g" ++ s ++ ".dirty" else "0+unknown.g" ++ s) ∧
    get_data_from_git
        { branch := none, is_dirty := false, sha := some "deadbee1234",
          short := some "deadbee", tag := none, distance := fun _ => none } =
      some { version := "0+unknown.gdeadbee", branch := none,
             revision := some "deadbee1234" } ∧
    get_data_from_git
        { branch := none, is_dirty := false, sha := none, short := none,
          tag := none, distance := fun _ => none } =
      some { version := "0+unknown", branch := none, revision := none } :=
  ⟨fun env h => gitComposeFallback env h, by decide, by decide⟩

/-- Witness for C6: the fallback composition applied at the concrete
no-branch no-tag environment with short id `deadbee`. -/
theorem C6_witness :
    gitVersionString
      { branch := none, is_dirty := false, sha := some "deadbee1234",
        short := some "deadbee", tag := none, distance := fun _ => none } =
      "0+unknown.gdeadbee" :=
  (C6_fallback_compose.1
      { branch := none, is_dirty := false, sha := some "deadbee1234",
        short := some "deadbee", tag := none, distance := fun _ => none }
      (by decide)).trans (by decide)

/- Lexicographic-order lemmas for the keyword tag selection. -/

/-- Code-point comparison is reflexive. -/
theorem chLe_refl : ∀ l : List Char, chLe l l = true
  | [] => rfl
  | a :: as => by
    simp only [chLe]
    rw [if_neg (Nat.lt_irrefl _), if_neg (Nat.lt_irrefl _)]
    exact chLe_refl as

/-- Code-point comparison is transitive. -/
theorem chLe_trans : ∀ (a b c : List Char),
    chLe a b = true → chLe b c = true → chLe a c = true
  | [], _, _, _, _ => rfl
  | _ :: _, [], _, h, _ => by cases h
  | _ :: _, _ :: _, [], _, h => by cases h
  | a :: as, b :: bs, c :: cs, h1, h2 => by
    simp only [chLe] at h1 h2 ⊢
    split at h1
    next hab =>
      split at h2
      next hbc => rw [if_pos (Nat.lt_trans hab hbc)]
      next hbc =>
        split at h2
        next hcb => cases h2
        next hcb => rw [if_pos (by omega : a.toNat < c.toNat)]
    next hab =>
      split at h1
      next hba => cases h1
      next hba =>
        split at h2
        next hbc => rw [if_pos (by omega : a.toNat < c.toNat)]
        next hbc =>
          split at h2
          next hcb => cases h2
          next hcb =>
            rw [if_neg (by omega : ¬ a.toNat < c.toNat),
                if_neg (by omega : ¬ c.toNat < a.toNat)]
            exact chLe_trans as bs cs h1 h2

/-- Code-point comparison is total. -/
theorem chLe_total : ∀ (a b : List Char), chLe a b = true ∨ chLe b a = true
  | [], _ => .inl rfl
  | _ :: _, [] => .inr rfl
  | a :: as, b :: bs => by
    simp only [chLe]
    rcases Nat.lt_trichotomy a.toNat b.toNat with h | h | h
    · left; rw [if_pos h]
    · rw [if_neg (by omega : ¬ a.toNat < b.toNat), if_neg (by omega : ¬ b.toNat < a.toNat),
          if_neg (by omega : ¬ b.toNat < a.toNat), if_neg (by omega : ¬ a.toNat < b.toNat)]
      exact chLe_total as bs
    · right; rw [if_pos h]

/-- String comparison is reflexive. -/
theorem strLe_refl (s : String) : strLe s s = true := chLe_refl s.data

/-- String comparison is transitive. -/
theorem strLe_trans {a b c : String} (h1 : strLe a b = true) (h2 : strLe b c = true) :
    strLe a c = true := chLe_trans a.data b.data c.data h1 h2

/-- String comparison is total. -/
theorem strLe_total (a b : String) : strLe a b = true ∨ strLe b a = true :=
  chLe_total a.data b.data

/-- Insertion never produces the empty list. -/
theorem insertSorted_ne_nil (x : String) (l : List String) : insertSorted x l ≠ [] := by
  cases l with
  | nil => simp [insertSorted]
  | cons y ys =>
    simp only [insertSorted]
    split <;> simp

/-- Sorting the empty list is the only way to obtain the empty list. -/
theorem sortStrings_nil (l : List String) (h : sortStrings l = []) : l = [] := by
  cases l with
  | nil => rfl
  | cons x xs => exact absurd h (insertSorted_ne_nil x (sortStrings xs))

/-- The head of the sorted list is a member of, and a lower bound for, the
input list. -/
theorem sortMin : ∀ (l : List String) (t : String) (r : List String),
    sortStrings l = t :: r → t ∈ l ∧ ∀ u ∈ l, strLe t u = true
  | [], t, r, h => by cases h
  | x :: xs, t, r, h => by
    rw [show sortStrings (x :: xs) = insertSorted x (sortStrings xs) from rfl] at h
    cases hs : sortStrings xs with
    | nil =>
      rw [hs] at h
      simp only [insertSorted] at h
      cases h
      have hxs : xs = [] := sortStrings_nil xs hs
      subst hxs
      refine ⟨List.mem_cons_self _ _, ?_⟩
      intro u hu
      rcases List.mem_cons.mp hu with h | h
      · subst h; exact strLe_refl _
      · cases h
    | cons t' r' =>
      rw [hs] at h
      obtain ⟨ht'mem, ht'min⟩ := sortMin xs t' r' hs
      simp only [insertSorted] at h
      split at h
      next hle =>
        cases h
        refine ⟨List.mem_cons_self _ _, ?_⟩
        intro u hu
        rcases List.mem_cons.mp hu with h | h
        · subst h; exact strLe_refl _
        · exact strLe_trans hle (ht'min u h)
      next hle =>
        cases h
        refine ⟨List.mem_cons_of_mem _ ht'mem, ?_⟩
        intro u hu
        rcases List.mem_cons.mp hu with h | h
        · subst h
          rcases strLe_total u t with h2 | h2
          · exact absurd h2 hle
          · exact h2
        · exact ht'min u h

/-- C8: the keyword source is inapplicable whenever either marker still starts
with its literal `$Format` form; the tag candidates are exactly the `tag: `
prefixed refs (marker stripped), or, when no ref is tag-prefixed, exactly the
refs containing a digit; the branch candidates are exactly the refs that are
not tag-prefixed, not `HEAD`, and not namespaced under `refs/`. -/
theorem C8_keywords_behavior :
    (∀ git_refnames git_full : String,
      strStarts git_refnames "$Format" = true ∨ strStarts git_full "$Format" = true →
      get_data_from_keywords git_refnames git_full = none) ∧
    (∀ (refs : List String) (t : String),
      ((∃ r ∈ refs, strStarts r "tag: " = true) →
        (t ∈ tagsOf refs ↔ ∃ r ∈ refs, strStarts r "tag: " = true ∧ t = strDrop r 5)) ∧
      ((∀ r ∈ refs, strStarts r "tag: " = false) →
        (t ∈ tagsOf refs ↔ t ∈ refs ∧ t.data.any isDig = true))) ∧
    (∀ (refs : List String) (b : String),
      b ∈ branchesOf refs ↔
        b ∈ refs ∧ strStarts b "tag: " = false ∧ b ≠ "HEAD" ∧
          strStarts b "refs/" = false) := by
  refine ⟨?_, ?_, ?_⟩
  · intro rn fl h
    unfold get_data_from_keywords
    rcases h with h | h <;> simp [h]
  · intro refs t
    constructor
    · intro hex
      have hne : (tagRefs refs).isEmpty = false := by
        obtain ⟨r, hr, hpre⟩ := hex
        have hmem : strDrop r 5 ∈ tagRefs refs := by
          simp only [tagRefs, List.mem_map]
          exact ⟨r, List.mem_filter.mpr ⟨hr, hpre⟩, rfl⟩
        cases htr : tagRefs refs with
        | nil => rw [htr] at hmem; cases hmem
        | cons a l => rfl
      simp only [tagsOf, hne]
      simp only [Bool.false_eq_true, if_false, tagRefs, List.mem_map, List.mem_filter]
      constructor
      · rintro ⟨r, ⟨hr, hp⟩, ht⟩
        exact ⟨r, hr, hp, ht.symm⟩
      · rintro ⟨r, hr, hp, ht⟩
        exact ⟨r, ⟨hr, hp⟩, ht.symm⟩
    · intro hall
      have hf : refs.filter (fun r => strStarts r "tag: ") = [] := by
        rw [List.filter_eq_nil_iff]
        intro r hr
        simp [hall r hr]
      have htr : tagRefs refs = [] := by simp [tagRefs, hf]
      simp only [tagsOf, htr]
      simp [List.mem_filter]
  · intro refs b
    simp only [branchesOf, List.mem_filter, Bool.and_eq_true, Bool.not_eq_true',
      decide_eq_false_iff_not, ne_eq]
    tauto

/-- Witness for C8: at the still-unexpanded markers of this checkout the
keyword source yields no result. -/
theorem C8_witness :
    get_data_from_keywords "$Format:%d$" "$Format:%H$" = none :=
  C8_keywords_behavior.1 "$Format:%d$" "$Format:%H$" (Or.inl (by decide))

/-- C10: the tag selected by the keyword source is the lexicographically
smallest tag candidate (the head of the sorted candidate list is a member and
a lower bound). -/
theorem C10_smallest_tag (refs : List String) (t : String)
    (h : keywordTag refs = some t) :
    t ∈ tagsOf refs ∧ ∀ u ∈ tagsOf refs, strLe t u = true := by
  unfold keywordTag at h
  cases hs : sortStrings (tagsOf refs) with
  | nil => rw [hs] at h; cases h
  | cons a l =>
    rw [hs] at h
    simp only [Option.some.injEq] at h
    subst h
    exact sortMin (tagsOf refs) a l hs

/-- Witness for C10: among the candidates `1.10.0rc1` and `1.9.0` the
selected tag `1.10.0rc1` is the lexicographic minimum. -/
theorem C10_witness :
    "1.10.0rc1" ∈ tagsOf ["master", "tag: 1.10.0rc1", "tag: 1.9.0"] ∧
    ∀ u ∈ tagsOf ["master", "tag: 1.10.0rc1", "tag: 1.9.0"],
      strLe "1.10.0rc1" u = true :=
  C10_smallest_tag ["master", "tag: 1.10.0rc1", "tag: 1.9.0"] "1.10.0rc1" (by decide)
